import Mathlib

/-!
Verification of the pipecat provider-adapter modules.

The development shallowly embeds the Python source files
`pipecat/services/aws/tts.py`, `pipecat/services/nvidia/tts.py`,
`pipecat/services/my_service/llm.py` and
`pipecat/services/my_service/llm_test.py`.  Byte strings are lists of
byte values, Python `None`-able strings are `Option String`, provider
calls are abstracted as explicit outcome parameters, and an async
generator body is the list of frames it yields together with the
exception (if any) escaping it.
-/

set_option maxHeartbeats 1000000

namespace Pipecat

/-- A byte string (`bytes`) is modelled as a list of byte values. -/
abbrev Bytes := List Nat

/-- Fuel-driven helper for `pyRange`; the fuel only serves structural
termination and is irrelevant as soon as it dominates `stop - start`. -/
def pyRangeAux (step : Nat) : Nat → Nat → Nat → List Nat
  | 0, _, _ => []
  | fuel + 1, start, stop =>
    if 0 < step ∧ start < stop then
      start :: pyRangeAux step fuel (start + step) stop
    else
      []

/-- Python `range(start, stop, step)` for a positive `step`: the indices
`start, start + step, ...` strictly below `stop`.  Python raises
`ValueError` when `step = 0`; every theorem below that touches a range
therefore assumes `0 < step`, and the `step = 0` value of this function
is never relied upon. -/
def pyRange (start stop step : Nat) : List Nat :=
  pyRangeAux step (stop - start) start stop

lemma pyRangeAux_fuel_irrel (step : Nat) :
    ∀ (fuel fuelB start stop : Nat), stop - start ≤ fuel → stop - start ≤ fuelB →
      pyRangeAux step fuel start stop = pyRangeAux step fuelB start stop := by
  intro fuel
  induction fuel with
  | zero =>
    intro fuelB start stop h1 h2
    cases fuelB with
    | zero => rfl
    | succ m =>
      have hno : ¬ (0 < step ∧ start < stop) := by omega
      simp [pyRangeAux, hno]
  | succ n ih =>
    intro fuelB start stop h1 h2
    cases fuelB with
    | zero =>
      have hno : ¬ (0 < step ∧ start < stop) := by omega
      simp [pyRangeAux, hno]
    | succ m =>
      by_cases h : 0 < step ∧ start < stop
      · obtain ⟨hs, hlt⟩ := h
        have e1 : pyRangeAux step (n + 1) start stop
            = start :: pyRangeAux step n (start + step) stop := by
          simp [pyRangeAux, hs, hlt]
        have e2 : pyRangeAux step (m + 1) start stop
            = start :: pyRangeAux step m (start + step) stop := by
          simp [pyRangeAux, hs, hlt]
        rw [e1, e2, ih m (start + step) stop (by omega) (by omega)]
      · simp [pyRangeAux, h]

/-- Python slice `l[a : b]` for clamped non-negative bounds. -/
def pySlice (l : List α) (a b : Nat) : List α :=
  (l.drop a).take (b - a)

/-- The chunking loop of `AWSPollyTTSService.run_tts`
(`aws/tts.py` lines 916-921): iterate `i` over
`range(0, len(audio_data), CHUNK_SIZE)`, slice
`audio_data[i : i + CHUNK_SIZE]`, and yield the slice when it is
non-empty.  The returned list holds the yielded chunks in order. -/
def chunkYields (audio : Bytes) (CHUNK_SIZE : Nat) : List Bytes :=
  (pyRange 0 audio.length CHUNK_SIZE).foldr
    (fun i acc =>
      let chunk := pySlice audio i (i + CHUNK_SIZE)
      if 0 < chunk.length then chunk :: acc else acc)
    []

lemma pyRange_eq_nil {start stop step : Nat} (h : ¬(0 < step ∧ start < stop)) :
    pyRange start stop step = [] := by
  unfold pyRange
  cases hfs : stop - start with
  | zero => rfl
  | succ m => simp [pyRangeAux, h]

lemma pyRange_eq_cons {start stop step : Nat} (hstep : 0 < step) (hlt : start < stop) :
    pyRange start stop step = start :: pyRange (start + step) stop step := by
  unfold pyRange
  have h1 : stop - start = (stop - start - 1) + 1 := by omega
  rw [h1]
  have e : pyRangeAux step ((stop - start - 1) + 1) start stop
      = start :: pyRangeAux step (stop - start - 1) (start + step) stop := by
    simp [pyRangeAux, hstep, hlt]
  rw [e, pyRangeAux_fuel_irrel step (stop - start - 1) (stop - (start + step))
    (start + step) stop (by omega) (le_refl _)]

lemma mem_pyRange {stop step : Nat} :
    ∀ {start x : Nat}, x ∈ pyRange start stop step → start ≤ x ∧ x < stop := by
  have key : ∀ (n start x : Nat), stop - start = n →
      x ∈ pyRange start stop step → start ≤ x ∧ x < stop := by
    intro n
    induction n using Nat.strong_induction_on with
    | _ n ih =>
      intro start x hn hx
      by_cases h : 0 < step ∧ start < stop
      · rw [pyRange_eq_cons h.1 h.2] at hx
        rcases List.mem_cons.1 hx with rfl | hx
        · exact ⟨le_refl _, h.2⟩
        · have := ih (stop - (start + step)) (by omega) (start + step) x rfl hx
          constructor <;> omega
      · rw [pyRange_eq_nil h] at hx
        simp at hx
  intro start x hx
  exact key (stop - start) start x rfl hx

lemma pyRange_shift (stop step d : Nat) :
    ∀ (a : Nat), pyRange (a + d) (stop + d) step = (pyRange a stop step).map (· + d) := by
  have key : ∀ (n a : Nat), stop - a = n →
      pyRange (a + d) (stop + d) step = (pyRange a stop step).map (· + d) := by
    intro n
    induction n using Nat.strong_induction_on with
    | _ n ih =>
      intro a hn
      by_cases h : 0 < step ∧ a < stop
      · rw [pyRange_eq_cons h.1 h.2, pyRange_eq_cons h.1 (by omega : a + d < stop + d)]
        simp only [List.map_cons]
        have harg : a + d + step = a + step + d := by omega
        rw [harg, ih (stop - (a + step)) (by omega) (a + step) rfl]
      · rw [pyRange_eq_nil h, pyRange_eq_nil (by omega), List.map_nil]
  intro a
  exact key (stop - a) a rfl

lemma foldr_chunks_eq_map (audio : Bytes) (sz : Nat) (hsz : 0 < sz) :
    ∀ (is : List Nat), (∀ i ∈ is, i < audio.length) →
      is.foldr (fun i acc =>
        let chunk := pySlice audio i (i + sz)
        if 0 < chunk.length then chunk :: acc else acc) []
      = is.map (fun i => (audio.drop i).take sz) := by
  intro is
  induction is with
  | nil => intro _; rfl
  | cons i rest ih =>
    intro hmem
    have hi : i < audio.length := hmem i (by simp)
    have hrest : ∀ j ∈ rest, j < audio.length := fun j hj => hmem j (by simp [hj])
    simp only [List.foldr_cons, List.map_cons]
    rw [ih hrest]
    have hlen : 0 < (pySlice audio i (i + sz)).length := by
      simp only [pySlice, List.length_take, List.length_drop]
      omega
    rw [if_pos hlen]
    have harg : i + sz - i = sz := by omega
    simp [pySlice, harg]

lemma chunkYields_eq_map (audio : Bytes) (sz : Nat) (hsz : 0 < sz) :
    chunkYields audio sz
      = (pyRange 0 audio.length sz).map (fun i => (audio.drop i).take sz) := by
  unfold chunkYields
  exact foldr_chunks_eq_map audio sz hsz _ (fun i hi => (mem_pyRange hi).2)

lemma flatten_map_chunks (sz : Nat) (hsz : 0 < sz) :
    ∀ (n : Nat) (l : Bytes), l.length ≤ n →
      ((pyRange 0 l.length sz).map (fun i => (l.drop i).take sz)).flatten = l := by
  intro n
  induction n with
  | zero =>
    intro l hl
    have : l = [] := List.length_eq_zero.1 (by omega)
    subst this
    rw [pyRange_eq_nil (by simp)]
    rfl
  | succ n ih =>
    intro l hl
    by_cases h0 : l.length = 0
    · have : l = [] := List.length_eq_zero.1 h0
      subst this
      rw [pyRange_eq_nil (by simp)]
      rfl
    · have hpos : 0 < l.length := Nat.pos_of_ne_zero h0
      rw [pyRange_eq_cons hsz hpos]
      simp only [List.map_cons, List.flatten_cons, List.drop_zero, Nat.zero_add]
      by_cases hle : l.length ≤ sz
      · rw [pyRange_eq_nil (by omega)]
        simp [List.take_of_length_le hle]
      · have hshift := pyRange_shift (l.length - sz) sz sz 0
        rw [Nat.zero_add] at hshift
        have hlen : l.length = (l.length - sz) + sz := by omega
        rw [hlen, hshift, List.map_map]
        have hfun :
            ((fun i => (l.drop i).take sz) ∘ (· + sz))
              = fun i => (((l.drop sz).drop i).take sz) := by
          funext i
          simp only [Function.comp_apply]
          rw [List.drop_drop, Nat.add_comm i sz]
        rw [hfun]
        have hdlen : l.length - sz = (l.drop sz).length := by
          simp
        rw [hdlen, ih (l.drop sz) (by simp only [List.length_drop]; omega)]
        exact List.take_append_drop sz l

/-- C4: the chunking loop of `AWSPollyTTSService.run_tts` yields exactly
the consecutive slices `audio_data[i : i + CHUNK_SIZE]` for
`i = 0, CHUNK_SIZE, 2 * CHUNK_SIZE, ...`; every yielded chunk is
non-empty and no longer than `CHUNK_SIZE`, and the concatenation of the
yielded chunks is the original byte string. -/
theorem aws_chunk_loop_spec (audio : Bytes) (CHUNK_SIZE : Nat) (hsz : 0 < CHUNK_SIZE) :
    chunkYields audio CHUNK_SIZE
      = (pyRange 0 audio.length CHUNK_SIZE).map
          (fun i => pySlice audio i (i + CHUNK_SIZE)) ∧
    (∀ c ∈ chunkYields audio CHUNK_SIZE, c ≠ [] ∧ c.length ≤ CHUNK_SIZE) ∧
    (chunkYields audio CHUNK_SIZE).flatten = audio := by
  have hmap := chunkYields_eq_map audio CHUNK_SIZE hsz
  refine ⟨?_, ?_, ?_⟩
  · rw [hmap]
    apply List.map_congr_left
    intro i hi
    have harg : i + CHUNK_SIZE - i = CHUNK_SIZE := by omega
    simp [pySlice, harg]
  · intro c hc
    rw [hmap] at hc
    rcases List.mem_map.1 hc with ⟨i, hi, rfl⟩
    have hilt : i < audio.length := (mem_pyRange hi).2
    constructor
    · intro hnil
      have := congrArg List.length hnil
      simp only [List.length_take, List.length_drop, List.length_nil] at this
      omega
    · simp
  · rw [hmap]
    exact flatten_map_chunks CHUNK_SIZE hsz audio.length audio (le_refl _)

/-- Witness for C4 at `audio = [1, 2, 3]`, `CHUNK_SIZE = 2`. -/
theorem aws_chunk_loop_spec_witness :
    0 < 2 ∧
    (chunkYields [1, 2, 3] 2
        = (pyRange 0 ([1, 2, 3] : Bytes).length 2).map
            (fun i => pySlice [1, 2, 3] i (i + 2)) ∧
      (∀ c ∈ chunkYields [1, 2, 3] 2, c ≠ [] ∧ c.length ≤ 2) ∧
      (chunkYields [1, 2, 3] 2).flatten = [1, 2, 3]) :=
  ⟨by decide, aws_chunk_loop_spec [1, 2, 3] 2 (by decide)⟩

/-- The frame constructors of `pipecat.frames.frames` used by the two
TTS adapters: start marker, raw audio chunk, stop marker, error. -/
inductive Frame where
  | ttsStarted : Frame
  | ttsAudioRaw (audio : Bytes) (sampleRate : Nat) (numChannels : Nat) : Frame
  | ttsStopped : Frame
  | errorFrame (error : String) : Frame
  deriving DecidableEq, Repr

/-- Whether a frame is a `TTSAudioRawFrame`. -/
def Frame.isAudio : Frame → Bool
  | .ttsAudioRaw _ _ _ => true
  | _ => false

/-- A Python exception escaping one of the embedded generators. -/
inductive PyExc where
  | nameError : PyExc
  deriving DecidableEq, Repr

/-- Outcome of the Polly `synthesize_speech` request inside
`AWSPollyTTSService.run_tts`: either the (resampled) PCM byte string, or
a `BotoCoreError`/`ClientError` whose `str(error)` is `msg`.  The
request happens before any frame is yielded. -/
inductive PollyOutcome where
  | ok (audio : Bytes) : PollyOutcome
  | err (msg : String) : PollyOutcome
  deriving DecidableEq, Repr

namespace AWSPollyTTSService

/-- `AWSPollyTTSService.run_tts` (`aws/tts.py` lines 867-929) as the
list of frames the async generator yields.  On success the `try` block
yields `TTSStartedFrame`, the non-empty audio chunks, and a
`TTSStoppedFrame` (line 923); the `finally` clause (line 929) then
yields a second `TTSStoppedFrame`.  On a `BotoCoreError`/`ClientError`
the `except` clause yields an `ErrorFrame` and `finally` yields a
`TTSStoppedFrame`.  No exception escapes on either path. -/
def run_tts (chunkSize sampleRate : Nat) (outcome : PollyOutcome) : List Frame :=
  match outcome with
  | .ok audio =>
      Frame.ttsStarted
        :: ((chunkYields audio chunkSize).map
              (fun c => Frame.ttsAudioRaw c sampleRate 1)
            ++ [Frame.ttsStopped, Frame.ttsStopped])
  | .err msg =>
      [Frame.errorFrame ("AWS Polly TTS error: " ++ msg), Frame.ttsStopped]

end AWSPollyTTSService

/-- Outcome of the Riva synthesis inside `NvidiaTTSService.run_tts`:
the streamed audio responses on success, or an `asyncio.TimeoutError`
(after some responses), or any other exception `e` with `str(e) = msg`.
The asserts and the first provider call sit after the
`TTSStartedFrame` yield, so every outcome starts with that frame. -/
inductive RivaOutcome where
  | ok (chunks : List Bytes) : RivaOutcome
  | timeout (chunksBefore : List Bytes) : RivaOutcome
  | exc (chunksBefore : List Bytes) (msg : String) : RivaOutcome
  deriving DecidableEq, Repr

namespace NvidiaTTSService

/-- `NvidiaTTSService.run_tts` (`nvidia/tts.py` lines 1009-1072):
the frames the async generator yields, paired with the exception that
escapes it, if any.  The success path yields start, audio chunks, stop.
The handler `except asyncio.TimeoutError:` evaluates
`f"{self} error: {e}"`, but `e` is not bound in that handler (only the
later `except Exception as e:` binds it), so Python raises `NameError`
while building the `ErrorFrame`: no `ErrorFrame` is yielded and the
`NameError` escapes the generator.  The generic handler yields an
`ErrorFrame` carrying `f"{self} error: {e}"` and lets nothing escape;
neither handler yields a stop frame. -/
def run_tts (selfRepr : String) (sampleRate : Nat) (outcome : RivaOutcome) :
    List Frame × Option PyExc :=
  match outcome with
  | .ok chunks =>
      (Frame.ttsStarted
          :: (chunks.map (fun c => Frame.ttsAudioRaw c sampleRate 1)
              ++ [Frame.ttsStopped]),
        none)
  | .timeout chunksBefore =>
      (Frame.ttsStarted
          :: chunksBefore.map (fun c => Frame.ttsAudioRaw c sampleRate 1),
        some PyExc.nameError)
  | .exc chunksBefore msg =>
      (Frame.ttsStarted
          :: (chunksBefore.map (fun c => Frame.ttsAudioRaw c sampleRate 1)
              ++ [Frame.errorFrame (selfRepr ++ " error: " ++ msg)]),
        none)

end NvidiaTTSService

/-- The frame pattern asserted by claim C2: the first frame is a
single `TTSStartedFrame`, the middle frames are all audio frames, and
the last frame is the single `TTSStoppedFrame` (so no stop marker
precedes the start marker and no second stop marker exists). -/
def StartAudioStopPattern (fs : List Frame) : Prop :=
  ∃ mid, fs = Frame.ttsStarted :: (mid ++ [Frame.ttsStopped])
    ∧ ∀ f ∈ mid, f.isAudio = true

/-- C2 counterexample: a successful Polly synthesis with empty audio
(chunk size 1, sample rate 16000) makes `AWSPollyTTSService.run_tts`
yield `[TTSStartedFrame, TTSStoppedFrame, TTSStoppedFrame]` — the end
of the `try` block and the `finally` clause each yield a stop marker —
so the claimed single-stop pattern fails. -/
theorem aws_run_tts_emits_two_stops :
    AWSPollyTTSService.run_tts 1 16000 (PollyOutcome.ok [])
        = [Frame.ttsStarted, Frame.ttsStopped, Frame.ttsStopped]
      ∧ ¬ StartAudioStopPattern
          (AWSPollyTTSService.run_tts 1 16000 (PollyOutcome.ok [])) := by
  have heval : AWSPollyTTSService.run_tts 1 16000 (PollyOutcome.ok [])
      = [Frame.ttsStarted, Frame.ttsStopped, Frame.ttsStopped] := by
    decide
  refine ⟨heval, ?_⟩
  rintro ⟨mid, hmid, haudio⟩
  rw [heval] at hmid
  have htail : mid ++ [Frame.ttsStopped] = [Frame.ttsStopped, Frame.ttsStopped] :=
    (List.cons_inj_right _).1 hmid.symm
  match mid, htail with
  | [], h => simp at h
  | [a], h =>
    have ha : a = Frame.ttsStopped := by
      have := congrArg (fun l => l.get? 0) h
      simpa using this
    subst ha
    have := haudio Frame.ttsStopped (by simp)
    simp [Frame.isAudio] at this
  | a :: b :: rest, h =>
    have := congrArg List.length h
    simp at this

/-- C2, amended: on a successful synthesis, `NvidiaTTSService.run_tts`
does emit exactly one `TTSStartedFrame` first, then only audio frames,
then exactly one `TTSStoppedFrame` last, and no exception escapes;
`AWSPollyTTSService.run_tts` emits exactly one `TTSStartedFrame` first
and then only audio frames, but ends with two consecutive
`TTSStoppedFrame`s — one from the `try` block and one from the
`finally` clause. -/
theorem run_tts_success_frame_order (chunkSize sampleRate : Nat)
    (audio : Bytes) (chunks : List Bytes) (selfRepr : String)
    (_hsz : 0 < chunkSize) :
    (∃ mid, AWSPollyTTSService.run_tts chunkSize sampleRate (PollyOutcome.ok audio)
          = Frame.ttsStarted :: (mid ++ [Frame.ttsStopped, Frame.ttsStopped])
        ∧ ∀ f ∈ mid, f.isAudio = true)
      ∧ StartAudioStopPattern
          (NvidiaTTSService.run_tts selfRepr sampleRate (RivaOutcome.ok chunks)).1
      ∧ (NvidiaTTSService.run_tts selfRepr sampleRate (RivaOutcome.ok chunks)).2
          = none := by
  refine ⟨⟨(chunkYields audio chunkSize).map
      (fun c => Frame.ttsAudioRaw c sampleRate 1), ?_, ?_⟩, ⟨chunks.map
      (fun c => Frame.ttsAudioRaw c sampleRate 1), ?_, ?_⟩, rfl⟩
  · simp [AWSPollyTTSService.run_tts]
  · intro f hf
    rcases List.mem_map.1 hf with ⟨c, _, rfl⟩
    rfl
  · rfl
  · intro f hf
    rcases List.mem_map.1 hf with ⟨c, _, rfl⟩
    rfl

/-- Witness for the amended C2 at chunk size 1, sample rate 16000,
audio `[7, 8]`, one Riva chunk `[9]`. -/
theorem run_tts_success_frame_order_witness :
    0 < 1 ∧
    ((∃ mid, AWSPollyTTSService.run_tts 1 16000 (PollyOutcome.ok [7, 8])
          = Frame.ttsStarted :: (mid ++ [Frame.ttsStopped, Frame.ttsStopped])
        ∧ ∀ f ∈ mid, f.isAudio = true)
      ∧ StartAudioStopPattern
          (NvidiaTTSService.run_tts "riva" 16000 (RivaOutcome.ok [[9]])).1
      ∧ (NvidiaTTSService.run_tts "riva" 16000 (RivaOutcome.ok [[9]])).2
          = none) :=
  ⟨by decide, run_tts_success_frame_order 1 16000 [7, 8] [[9]] "riva" (by decide)⟩

/-- C3: on the Riva timeout path the claim fails in the code.  With a
timeout before any audio response, `NvidiaTTSService.run_tts` yields
only the `TTSStartedFrame` — no `ErrorFrame` — and a `NameError`
escapes the generator, because the `except asyncio.TimeoutError:`
handler's f-string references the unbound name `e`.  (The Polly
handler and the generic Riva handler do behave as claimed: they yield
an `ErrorFrame` and let nothing escape.) -/
theorem riva_timeout_handler_raises_nameerror :
    NvidiaTTSService.run_tts "riva" 16000 (RivaOutcome.timeout [])
        = ([Frame.ttsStarted], some PyExc.nameError)
      ∧ (∀ msg,
          AWSPollyTTSService.run_tts 1 16000 (PollyOutcome.err msg)
            = [Frame.errorFrame ("AWS Polly TTS error: " ++ msg), Frame.ttsStopped])
      ∧ (∀ msg chunksBefore,
          (NvidiaTTSService.run_tts "riva" 16000 (RivaOutcome.exc chunksBefore msg)).2
            = none) := by
  exact ⟨rfl, fun msg => rfl, fun msg chunksBefore => rfl⟩

/-- Python truthiness of an optional string: `None` and `""` are falsy,
every other string is truthy. -/
def pyTruthy : Option String → Bool
  | none => false
  | some s => !(s == "")

/-- Python f-string interpolation of a value that may be `None`. -/
def pyStrOpt : Option String → String
  | none => "None"
  | some s => s

/-- The prosody-related entries of the `_settings` dict built in
`AWSPollyTTSService.__init__`: each is a Python string or `None`. -/
structure PollySettings where
  engine : Option String
  language : Option String
  pitch : Option String
  rate : Option String
  volume : Option String
  deriving DecidableEq, Repr

lemma string_eq_empty_of_length_eq_zero {s : String} (h : s.length = 0) : s = "" := by
  cases s with
  | mk data =>
    cases data with
    | nil => rfl
    | cons c cs => simp [String.length] at h

namespace AWSPollyTTSService

/-- `AWSPollyTTSService._construct_ssml` (`aws/tts.py` lines 833-864),
transcribed statement by statement: the accumulating `ssml` string, the
`prosody_attrs` list built by the engine/pitch, rate and volume guards,
and the conditional `<prosody ...>` wrapper. -/
def _construct_ssml (settings : PollySettings) (text : String) : String :=
  let ssml := "<speak>"
  let language := settings.language
  let ssml := ssml ++ ("<lang xml:lang=\x27" ++ pyStrOpt language ++ "\x27>")
  let prosody_attrs : List String := []
  let prosody_attrs :=
    if settings.engine == some "standard" then
      if pyTruthy settings.pitch then
        prosody_attrs ++ ["pitch=\x27" ++ pyStrOpt settings.pitch ++ "\x27"]
      else prosody_attrs
    else prosody_attrs
  let prosody_attrs :=
    if pyTruthy settings.rate then
      prosody_attrs ++ ["rate=\x27" ++ pyStrOpt settings.rate ++ "\x27"]
    else prosody_attrs
  let prosody_attrs :=
    if pyTruthy settings.volume then
      prosody_attrs ++ ["volume=\x27" ++ pyStrOpt settings.volume ++ "\x27"]
    else prosody_attrs
  let ssml :=
    if prosody_attrs ≠ [] then
      ssml ++ ("<prosody " ++ String.intercalate " " prosody_attrs ++ ">")
    else ssml
  let ssml := ssml ++ text
  let ssml := if prosody_attrs ≠ [] then ssml ++ "</prosody>" else ssml
  let ssml := ssml ++ "</lang>"
  let ssml := ssml ++ "</speak>"
  ssml

/-- The value of the `prosody_attrs` list after the three guards of
`_construct_ssml`. -/
def prosodyAttrs (settings : PollySettings) : List String :=
  (if settings.engine == some "standard" then
     if pyTruthy settings.pitch then
       ["pitch=\x27" ++ pyStrOpt settings.pitch ++ "\x27"]
     else []
   else [])
  ++ (if pyTruthy settings.rate then
        ["rate=\x27" ++ pyStrOpt settings.rate ++ "\x27"]
      else [])
  ++ (if pyTruthy settings.volume then
        ["volume=\x27" ++ pyStrOpt settings.volume ++ "\x27"]
      else [])

/-- The opening prosody wrapper emitted by `_construct_ssml`. -/
def prosodyOpen (settings : PollySettings) : String :=
  if prosodyAttrs settings = [] then ""
  else "<prosody " ++ String.intercalate " " (prosodyAttrs settings) ++ ">"

/-- The closing prosody wrapper emitted by `_construct_ssml`. -/
def prosodyClose (settings : PollySettings) : String :=
  if prosodyAttrs settings = [] then "" else "</prosody>"

/-- The fixed part of the SSML document preceding the prosody wrapper. -/
def ssmlHead (settings : PollySettings) : String :=
  "<speak><lang xml:lang=\x27" ++ pyStrOpt settings.language ++ "\x27>"

lemma speak_lang_merge (r : String) :
    "<speak>" ++ ("<lang xml:lang=\x27" ++ r) = "<speak><lang xml:lang=\x27" ++ r := by
  rw [← String.append_assoc]
  congr 1

lemma construct_ssml_eq (settings : PollySettings) (text : String) :
    _construct_ssml settings text
      = ssmlHead settings ++ prosodyOpen settings ++ text
        ++ prosodyClose settings ++ "</lang></speak>" := by
  cases he : settings.engine == some "standard" <;>
    cases hp : pyTruthy settings.pitch <;>
    cases hr : pyTruthy settings.rate <;>
    cases hv : pyTruthy settings.volume <;>
      simp [_construct_ssml, prosodyAttrs, prosodyOpen, prosodyClose, ssmlHead,
        he, hp, hr, hv, String.append_assoc, speak_lang_merge]

lemma prosodyOpen_ne_empty_iff (settings : PollySettings) :
    prosodyOpen settings ≠ "" ↔ prosodyAttrs settings ≠ [] := by
  unfold prosodyOpen
  by_cases h : prosodyAttrs settings = []
  · simp [h]
  · rw [if_neg h]
    have hx : ("<prosody " ++ " ".intercalate (prosodyAttrs settings) ++ ">") ≠ "" := by
      intro he
      have hlen := congrArg String.length he
      simp only [String.length_append] at hlen
      have l1 : ("<prosody " : String).length = 9 := rfl
      have l2 : (">" : String).length = 1 := rfl
      have l3 : ("" : String).length = 0 := rfl
      rw [l1, l2, l3] at hlen
      omega
    simp [hx, h]

lemma prosodyClose_ne_empty_iff (settings : PollySettings) :
    prosodyClose settings ≠ "" ↔ prosodyAttrs settings ≠ [] := by
  unfold prosodyClose
  by_cases h : prosodyAttrs settings = []
  · simp [h]
  · rw [if_neg h]
    have hx : ("</prosody>" : String) ≠ "" := by decide
    simp [hx, h]

/-- C5, amended: `_construct_ssml` returns
`"<speak><lang xml:lang='L'>" ++ P_open ++ text ++ P_close ++ "</lang></speak>"`
where `L` is the configured language; the prosody wrapper is present
exactly when rate is set to a non-empty string, or volume is set to a
non-empty string, or pitch is set to a non-empty string while the
engine is `'standard'` (Python truthiness, so a value set to the empty
string does not count); and when the engine is not `'standard'` the
prosody tag is built from the rate and volume attributes only, so the
pitch attribute appears only under the `'standard'` engine. -/
theorem construct_ssml_spec (settings : PollySettings) (text : String) :
    _construct_ssml settings text
        = ssmlHead settings ++ prosodyOpen settings ++ text
          ++ prosodyClose settings ++ "</lang></speak>"
      ∧ ((prosodyOpen settings ≠ "" ∨ prosodyClose settings ≠ "")
          ↔ (pyTruthy settings.rate = true ∨ pyTruthy settings.volume = true
              ∨ (pyTruthy settings.pitch = true ∧ settings.engine = some "standard")))
      ∧ (settings.engine ≠ some "standard" →
          prosodyAttrs settings
            = (if pyTruthy settings.rate then
                 ["rate=\x27" ++ pyStrOpt settings.rate ++ "\x27"]
               else [])
              ++ (if pyTruthy settings.volume then
                    ["volume=\x27" ++ pyStrOpt settings.volume ++ "\x27"]
                  else [])) := by
  refine ⟨construct_ssml_eq settings text, ?_, ?_⟩
  · rw [prosodyOpen_ne_empty_iff, prosodyClose_ne_empty_iff, or_self]
    cases he : settings.engine == some "standard" <;>
      cases hp : pyTruthy settings.pitch <;>
      cases hr : pyTruthy settings.rate <;>
      cases hv : pyTruthy settings.volume <;>
        simp_all [prosodyAttrs, beq_iff_eq]
  · intro hne
    have he : (settings.engine == some "standard") = false := by
      simpa using hne
    simp [prosodyAttrs, he]

/-- The shape claim C5 makes about `_construct_ssml`, with "rate is
set" read as the `Optional` field holding a value (`isSome`): some
decomposition around `text` exists whose prosody wrapper is non-trivial
exactly when rate or volume is set, or pitch is set under the
`'standard'` engine. -/
def SsmlWrapperClaim (settings : PollySettings) (text : String) : Prop :=
  ∃ popen pclose : String,
    _construct_ssml settings text
        = ssmlHead settings ++ popen ++ text ++ pclose ++ "</lang></speak>"
    ∧ ((popen ≠ "" ∨ pclose ≠ "")
        ↔ (settings.rate.isSome = true ∨ settings.volume.isSome = true
            ∨ (settings.pitch.isSome = true ∧ settings.engine = some "standard")))

/-- C5 counterexample: with `rate` set to the empty string (and engine,
pitch, volume unset), `rate` is set in the `Optional` sense, yet the
code emits no prosody wrapper at all, because Python's truthiness test
`if self._settings["rate"]:` rejects the empty string.  So the claimed
"present exactly when rate is set" equivalence fails. -/
theorem construct_ssml_empty_rate_counterexample :
    ((⟨none, some "en-US", none, some "", none⟩ : PollySettings).rate.isSome = true)
    ∧ _construct_ssml ⟨none, some "en-US", none, some "", none⟩ "hi"
        = "<speak><lang xml:lang=\x27en-US\x27>hi</lang></speak>"
    ∧ ¬ SsmlWrapperClaim ⟨none, some "en-US", none, some "", none⟩ "hi" := by
  have heval : _construct_ssml ⟨none, some "en-US", none, some "", none⟩ "hi"
      = "<speak><lang xml:lang=\x27en-US\x27>hi</lang></speak>" := by
    decide
  refine ⟨rfl, heval, ?_⟩
  rintro ⟨popen, pclose, heq, hiff⟩
  have hne : popen ≠ "" ∨ pclose ≠ "" := hiff.mpr (Or.inl rfl)
  rw [heval] at heq
  have hlen := congrArg String.length heq
  simp only [ssmlHead, pyStrOpt, String.length_append] at hlen
  have l0 : ("<speak><lang xml:lang=\x27en-US\x27>hi</lang></speak>" : String).length = 47 := rfl
  have l1 : ("<speak><lang xml:lang=\x27" : String).length = 23 := rfl
  have l2 : ("en-US" : String).length = 5 := rfl
  have l3 : ("\x27>" : String).length = 2 := rfl
  have l4 : ("hi" : String).length = 2 := rfl
  have l5 : ("</lang></speak>" : String).length = 15 := rfl
  rw [l0, l1, l2, l3, l4, l5] at hlen
  rcases hne with h | h
  · exact h (string_eq_empty_of_length_eq_zero (by omega))
  · exact h (string_eq_empty_of_length_eq_zero (by omega))

end AWSPollyTTSService

/-- Modelled from the spec: the framework's `Language` enumeration
(`pipecat.transcriptions.language`) is defined outside this
repository's files.  The model lists every `Language` value that
appears in the `LANGUAGE_MAP` table of `language_to_aws_language`,
plus representative values of the enumeration that the table does not
mention (`BG`, `EL`, `HE`, `HU`, `TH`, `UK`, `VI`). -/
inductive Language where
  | AR | AR_AE | CA | ZH | YUE | YUE_CN | CS | DA | NL | NL_BE
  | EN | EN_AU | EN_GB | EN_IN | EN_NZ | EN_US | EN_ZA | FI
  | FR | FR_BE | FR_CA | DE | DE_AT | DE_CH | HI | IS | IT | JA
  | KO | NO | NB | NB_NO | PL | PT | PT_BR | PT_PT | RO | RU
  | ES | ES_MX | ES_US | SV | TR | CY | CY_GB
  | BG | EL | HE | HU | TH | UK | VI
  deriving DecidableEq, Fintype, Repr

/-- The `LANGUAGE_MAP` dict literal of `language_to_aws_language`
(`aws/tts.py` lines 49-119), in source order. -/
def LANGUAGE_MAP : List (Language × String) :=
  [(Language.AR, "arb"), (Language.AR_AE, "ar-AE"),
   (Language.CA, "ca-ES"),
   (Language.ZH, "cmn-CN"), (Language.YUE, "yue-CN"), (Language.YUE_CN, "yue-CN"),
   (Language.CS, "cs-CZ"),
   (Language.DA, "da-DK"),
   (Language.NL, "nl-NL"), (Language.NL_BE, "nl-BE"),
   (Language.EN, "en-US"), (Language.EN_AU, "en-AU"), (Language.EN_GB, "en-GB"),
   (Language.EN_IN, "en-IN"), (Language.EN_NZ, "en-NZ"), (Language.EN_US, "en-US"),
   (Language.EN_ZA, "en-ZA"),
   (Language.FI, "fi-FI"),
   (Language.FR, "fr-FR"), (Language.FR_BE, "fr-BE"), (Language.FR_CA, "fr-CA"),
   (Language.DE, "de-DE"), (Language.DE_AT, "de-AT"), (Language.DE_CH, "de-CH"),
   (Language.HI, "hi-IN"),
   (Language.IS, "is-IS"),
   (Language.IT, "it-IT"),
   (Language.JA, "ja-JP"),
   (Language.KO, "ko-KR"),
   (Language.NO, "nb-NO"), (Language.NB, "nb-NO"), (Language.NB_NO, "nb-NO"),
   (Language.PL, "pl-PL"),
   (Language.PT, "pt-PT"), (Language.PT_BR, "pt-BR"), (Language.PT_PT, "pt-PT"),
   (Language.RO, "ro-RO"),
   (Language.RU, "ru-RU"),
   (Language.ES, "es-ES"), (Language.ES_MX, "es-MX"), (Language.ES_US, "es-US"),
   (Language.SV, "sv-SE"),
   (Language.TR, "tr-TR"),
   (Language.CY, "cy-GB"), (Language.CY_GB, "cy-GB")]

/-- Modelled from the spec: `resolve_language` is defined in
`pipecat.transcriptions.language`, outside this repository's files.
`language_to_aws_language` calls it with `use_base_code=False`, where
it is an exact dictionary lookup that returns `None` for a language
absent from the map; only that behaviour is modelled (the
`use_base_code` flag is carried but unused). -/
def resolve_language (language : Language) (language_map : List (Language × String))
    (_use_base_code : Bool) : Option String :=
  language_map.lookup language

/-- `language_to_aws_language` (`aws/tts.py` lines 40-121). -/
def language_to_aws_language (language : Language) : Option String :=
  resolve_language language LANGUAGE_MAP false

/-- C6: `language_to_aws_language` is total on the `Language`
enumeration; every value listed in `LANGUAGE_MAP` is sent to its AWS
Polly code (in particular `EN ↦ en-US`, `NO ↦ nb-NO`, `NB ↦ nb-NO`,
`ZH ↦ cmn-CN`), and every value not listed is sent to `None`. -/
theorem language_to_aws_language_table :
    (∀ p ∈ LANGUAGE_MAP, language_to_aws_language p.1 = some p.2)
    ∧ language_to_aws_language Language.EN = some "en-US"
    ∧ language_to_aws_language Language.NO = some "nb-NO"
    ∧ language_to_aws_language Language.NB = some "nb-NO"
    ∧ language_to_aws_language Language.ZH = some "cmn-CN"
    ∧ (∀ l : Language, l ∉ LANGUAGE_MAP.map Prod.fst →
        language_to_aws_language l = none) := by
  refine ⟨by decide, rfl, rfl, rfl, rfl, by decide⟩

/-- A chat message dict with its `role` and `content` entries; every
message reaching `check_conversation_length` carries both keys as
strings (the source reads `convo.get("role")` and `convo["content"]`). -/
structure Message where
  role : String
  content : String
  deriving DecidableEq, Repr

/-- Python `s.startswith(pat)`: `pat` is a character-wise prefix of `s`. -/
def pyStartswith (s pat : String) : Bool :=
  pat.data.isPrefixOf s.data

/-- Python `repr` of a message dict as interpolated by an f-string
(key order as at the construction sites in `llm_test.py`).  The value
only ever feeds the opaque summariser, so no theorem depends on it. -/
def pyDictRepr (m : Message) : String :=
  "\x7b\x27content\x27: \x27" ++ m.content ++ "\x27, \x27role\x27: \x27"
    ++ m.role ++ "\x27\x7d"

/-- `messages_to_text` (`llm_test.py` lines 189-198): the optional
"Summary so far" header followed by one `role: content` line per
message, joined by newlines. -/
def messages_to_text (messages : List Message) (existing_summary : Option Message) :
    String :=
  let parts : List String :=
    (match existing_summary with
     | some s => ["Summary so far:\n" ++ pyDictRepr s]
     | none => [])
    ++ messages.map (fun m => m.role ++ ": " ++ m.content)
  String.intercalate "\n" parts

/-- The system-message scan of `check_conversation_length`
(`llm_test.py` lines 145-163): walk the conversation; each message
whose role is `"system"` bumps `count` and either replaces
`existing_summary` (content starts with `"[SUMMARY]"`) or is appended
to `system_message`; the loop breaks once `count` exceeds 2, i.e.
right after the third system message seen.  Returns the final
`system_message` and `existing_summary` (`none` models the falsy
initial `[]`). -/
def scanSystems : List Message → Nat → List Message → Option Message →
    List Message × Option Message
  | [], _, system_message, existing_summary => (system_message, existing_summary)
  | convo :: rest, count, system_message, existing_summary =>
    if convo.role == "system" then
      if pyStartswith convo.content "[SUMMARY]" then
        if count + 1 > 2 then (system_message, some convo)
        else scanSystems rest (count + 1) system_message (some convo)
      else
        if count + 1 > 2 then (system_message ++ [convo], existing_summary)
        else scanSystems rest (count + 1) (system_message ++ [convo]) existing_summary
    else
      scanSystems rest count system_message existing_summary

/-- `check_conversation_length` (`llm_test.py` lines 143-186).  The
provider call `llm.summarise_text(old_text)` is abstracted by the
`summarise` parameter.  When the guard `len(conversation) > 10` fails,
the Python function falls off the end of its body and returns `None`. -/
def check_conversation_length (summarise : String → String)
    (conversation : List Message) : Option (List Message) :=
  if conversation.length > 10 then
    let scanned := scanSystems conversation 0 [] none
    let system_message := scanned.1
    let existing_summary := scanned.2
    let NON_SYSTEM := conversation.filter (fun m => !(m.role == "system"))
    let old_messages := NON_SYSTEM.take (NON_SYSTEM.length - 5)
    let new_messages := NON_SYSTEM.drop (NON_SYSTEM.length - 5)
    let old_text := messages_to_text old_messages existing_summary
    let summary := summarise old_text
    some (system_message
      ++ [⟨"system", "[SUMMARY]" ++ "\n" ++ summary⟩]
      ++ new_messages)
  else
    none

/-- The non-system messages of a conversation, in order. -/
def nonSystem (conversation : List Message) : List Message :=
  conversation.filter (fun m => !(m.role == "system"))

/-- The last `n` elements of a list (all of them when fewer exist). -/
def lastN (l : List α) (n : Nat) : List α :=
  l.drop (l.length - n)

/-- The system messages the scan loop retains: the non-summary ones
among the first three system messages of the conversation. -/
def retainedSystems (conversation : List Message) : List Message :=
  ((conversation.filter (fun m => m.role == "system")).take 3).filter
    (fun m => !(pyStartswith m.content "[SUMMARY]"))

lemma pyStartswith_append (pat rest : String) :
    pyStartswith (pat ++ rest) pat = true := by
  simp [pyStartswith, String.data_append, List.isPrefixOf_iff_prefix]

lemma scanSystems_fst :
    ∀ (l : List Message) (count : Nat) (sys : List Message) (ex : Option Message),
      count ≤ 2 →
      (scanSystems l count sys ex).1
        = sys ++ ((l.filter (fun m => m.role == "system")).take (3 - count)).filter
            (fun m => !(pyStartswith m.content "[SUMMARY]")) := by
  intro l
  induction l with
  | nil => intro count sys ex _; simp [scanSystems]
  | cons convo rest ih =>
    intro count sys ex hcount
    by_cases hrole : (convo.role == "system") = true
    · by_cases hsum : pyStartswith convo.content "[SUMMARY]" = true
      · by_cases hbreak : count + 1 > 2
        · have hc2 : count = 2 := by omega
          subst hc2
          have htake : (3 : Nat) - 2 = 1 := by omega
          simp [scanSystems, hrole, hsum, hbreak, htake]
        · have harith : 3 - count = (3 - (count + 1)) + 1 := by omega
          rw [harith]
          have hstep : scanSystems (convo :: rest) count sys ex
              = scanSystems rest (count + 1) sys (some convo) := by
            simp [scanSystems, hrole, hsum, hbreak]
          rw [hstep, ih (count + 1) sys (some convo) (by omega)]
          simp [hrole, hsum]
      · have hsum2 : pyStartswith convo.content "[SUMMARY]" = false := by
          simpa using hsum
        by_cases hbreak : count + 1 > 2
        · have hc2 : count = 2 := by omega
          subst hc2
          have htake : (3 : Nat) - 2 = 1 := by omega
          simp [scanSystems, hrole, hsum2, hbreak, htake]
        · have harith : 3 - count = (3 - (count + 1)) + 1 := by omega
          rw [harith]
          have hstep : scanSystems (convo :: rest) count sys ex
              = scanSystems rest (count + 1) (sys ++ [convo]) ex := by
            simp [scanSystems, hrole, hsum2, hbreak]
          rw [hstep, ih (count + 1) (sys ++ [convo]) ex (by omega)]
          simp [hrole, hsum2]
    · have hrole2 : (convo.role == "system") = false := by
        simpa using hrole
      simp only [scanSystems, hrole2, if_neg, Bool.false_eq_true, if_false]
      rw [ih count sys ex hcount]
      simp [hrole2]

lemma check_conversation_length_eq (summarise : String → String)
    (conversation : List Message) (hlen : conversation.length > 10) :
    check_conversation_length summarise conversation
      = some (retainedSystems conversation
          ++ [⟨"system", "[SUMMARY]" ++ "\n"
                ++ summarise (messages_to_text
                     ((nonSystem conversation).take ((nonSystem conversation).length - 5))
                     (scanSystems conversation 0 [] none).2)⟩]
          ++ lastN (nonSystem conversation) 5) := by
  have hscan := scanSystems_fst conversation 0 [] none (by omega)
  simp only [List.nil_append] at hscan
  unfold check_conversation_length retainedSystems nonSystem lastN
  rw [if_pos hlen]
  dsimp only
  rw [hscan]

/-- The statement of claim C1 at a conversation: the compacted output
is the retained non-summary system messages, exactly one new summary
message, and a tail of exactly five messages — the last five
non-system messages of the input. -/
def CompactionClaim (summarise : String → String) (conversation : List Message) : Prop :=
  ∃ out s, check_conversation_length summarise conversation = some out
    ∧ s.role = "system" ∧ pyStartswith s.content "[SUMMARY]" = true
    ∧ (lastN (nonSystem conversation) 5).length = 5
    ∧ out = retainedSystems conversation ++ [s] ++ lastN (nonSystem conversation) 5

/-- C1 counterexample: a conversation of eleven plain system messages
has more than 10 messages but no non-system message at all, so the
output's tail holds zero messages, not the five the claim demands
(`check_conversation_length` returns the three retained system
messages plus the summary message only). -/
theorem compaction_claim_counterexample :
    (List.replicate 11 (⟨"system", "x"⟩ : Message)).length > 10
    ∧ ¬ CompactionClaim (fun _ => "s") (List.replicate 11 ⟨"system", "x"⟩) := by
  refine ⟨by decide, ?_⟩
  rintro ⟨out, s, hout, hrole, htag, hfive, heq⟩
  have hz : (lastN (nonSystem (List.replicate 11 (⟨"system", "x"⟩ : Message))) 5).length
      = 0 := by decide
  omega

/-- C1, amended: for every conversation with more than 10 messages,
`check_conversation_length` returns the input's non-summary system
messages (scanned until at most 3 system messages have been seen),
followed by exactly one new system message whose content starts with
`"[SUMMARY]"`, followed by the last *up to* five non-system messages
of the input — all of them when fewer than five exist — unchanged and
in their original order. -/
theorem check_conversation_length_compacts (summarise : String → String)
    (conversation : List Message) (hlen : conversation.length > 10) :
    ∃ s : Message,
      s.role = "system" ∧ pyStartswith s.content "[SUMMARY]" = true
      ∧ check_conversation_length summarise conversation
          = some (retainedSystems conversation ++ [s]
              ++ lastN (nonSystem conversation) 5)
      ∧ (∀ m ∈ retainedSystems conversation,
          m.role = "system" ∧ pyStartswith m.content "[SUMMARY]" = false) := by
  refine ⟨⟨"system", "[SUMMARY]" ++ "\n"
      ++ summarise (messages_to_text
           ((nonSystem conversation).take ((nonSystem conversation).length - 5))
           (scanSystems conversation 0 [] none).2)⟩, rfl, ?_, ?_, ?_⟩
  · show pyStartswith (("[SUMMARY]" ++ "\n") ++ _) "[SUMMARY]" = true
    rw [String.append_assoc]
    exact pyStartswith_append _ _
  · exact check_conversation_length_eq summarise conversation hlen
  · intro m hm
    unfold retainedSystems at hm
    rcases List.mem_filter.1 hm with ⟨hm1, hp⟩
    have hrole : (m.role == "system") = true :=
      (List.mem_filter.1 (List.mem_of_mem_take hm1)).2
    exact ⟨by simpa using hrole, by simpa using hp⟩

/-- Witness for the amended C1 at a conversation of one system message
followed by ten user messages. -/
theorem check_conversation_length_compacts_witness :
    ((⟨"system", "a"⟩ : Message) :: List.replicate 10 ⟨"user", "u"⟩).length > 10
    ∧ (∃ s : Message,
        s.role = "system" ∧ pyStartswith s.content "[SUMMARY]" = true
        ∧ check_conversation_length (fun _ => "S")
              (⟨"system", "a"⟩ :: List.replicate 10 ⟨"user", "u"⟩)
            = some (retainedSystems (⟨"system", "a"⟩ :: List.replicate 10 ⟨"user", "u"⟩)
                ++ [s]
                ++ lastN (nonSystem (⟨"system", "a"⟩ :: List.replicate 10 ⟨"user", "u"⟩)) 5)
        ∧ (∀ m ∈ retainedSystems (⟨"system", "a"⟩ :: List.replicate 10 ⟨"user", "u"⟩),
            m.role = "system" ∧ pyStartswith m.content "[SUMMARY]" = false)) :=
  ⟨by decide, check_conversation_length_compacts (fun _ => "S")
    (⟨"system", "a"⟩ :: List.replicate 10 ⟨"user", "u"⟩) (by decide)⟩

/-- C7: for every conversation with more than 10 messages, the list
returned by `check_conversation_length` has length at most 9: at most
3 retained system messages, one summary message, and at most 5
non-system messages. -/
theorem check_conversation_length_bounded (summarise : String → String)
    (conversation : List Message) (hlen : conversation.length > 10) :
    ∃ out, check_conversation_length summarise conversation = some out
      ∧ out.length ≤ 9 := by
  refine ⟨_, check_conversation_length_eq summarise conversation hlen, ?_⟩
  have h1 : (retainedSystems conversation).length ≤ 3 := by
    unfold retainedSystems
    have hf := List.length_filter_le (fun m => !(pyStartswith m.content "[SUMMARY]"))
      ((conversation.filter (fun m => m.role == "system")).take 3)
    have ht := List.length_take 3 (conversation.filter (fun m => m.role == "system"))
    omega
  have h2 : (lastN (nonSystem conversation) 5).length ≤ 5 := by
    unfold lastN
    have := List.length_drop ((nonSystem conversation).length - 5) (nonSystem conversation)
    omega
  simp only [List.length_append, List.length_cons, List.length_nil]
  omega

/-- Witness for C7 at a conversation of eleven user messages. -/
theorem check_conversation_length_bounded_witness :
    (List.replicate 11 (⟨"user", "u"⟩ : Message)).length > 10
    ∧ (∃ out, check_conversation_length (fun _ => "S")
          (List.replicate 11 ⟨"user", "u"⟩) = some out
        ∧ out.length ≤ 9) :=
  ⟨by decide, check_conversation_length_bounded (fun _ => "S")
    (List.replicate 11 ⟨"user", "u"⟩) (by decide)⟩

/-- C10: for every conversation with 10 or fewer messages,
`check_conversation_length` returns `None` — the whole body sits under
the `len(conversation) > 10` guard, which has no else branch — rather
than returning the conversation unchanged. -/
theorem check_conversation_length_short_none (summarise : String → String)
    (conversation : List Message) (hlen : conversation.length ≤ 10) :
    check_conversation_length summarise conversation = none := by
  unfold check_conversation_length
  rw [if_neg (by omega)]

/-- Witness for C10 at a two-message conversation. -/
theorem check_conversation_length_short_none_witness :
    ([⟨"system", "a"⟩, ⟨"user", "u"⟩] : List Message).length ≤ 10
    ∧ check_conversation_length (fun _ => "S") [⟨"system", "a"⟩, ⟨"user", "u"⟩]
        = none :=
  ⟨by decide, check_conversation_length_short_none (fun _ => "S")
    [⟨"system", "a"⟩, ⟨"user", "u"⟩] (by decide)⟩

/-- A chat message dict as handled by `MyLLMService.generate`; the
`content` entry may be `None`, matching the dicts the call sites
build (`response.text` can be `None`). -/
structure GenMessage where
  role : String
  content : Option String
  deriving DecidableEq, Repr

/-- The `LLMResponse` dataclass (`llm.py` lines 12-15).  The dataclass
annotates `text: str`, but Python does not enforce the annotation and
the code stores `response.choices[0].message.content`, which can be
`None`; `raw` holds the provider response object, modelled opaquely. -/
structure LLMResponse where
  text : Option String
  raw : Option Unit
  deriving DecidableEq, Repr

/-- A Python exception raised by `MyLLMService.generate`:
`typeErrorStrRaised` models `raise "No messages provided"` — raising a
`str` makes Python raise `TypeError: exceptions must derive from
BaseException`, so the message string is lost — and `runtimeError`
models `raise RuntimeError(msg)`. -/
inductive GenExc where
  | typeErrorStrRaised : GenExc
  | runtimeError (msg : String) : GenExc
  deriving DecidableEq, Repr

/-- The provider behaviour seen by one `generate` call, abstracting
`client.chat.completions.create`: the first request either raises
`asyncio.TimeoutError`, or returns a message without tool calls whose
content is `content`, or returns a tool-call message, in which case
the follow-up request returns `content2`. -/
inductive ProviderBehavior where
  | timeout : ProviderBehavior
  | plain (content : Option String) : ProviderBehavior
  | tool (content2 : Option String) : ProviderBehavior
  deriving DecidableEq, Repr

/-- `MyLLMService.generate` (`llm.py` lines 49-113) over the
abstracted provider; the second component counts the
`chat.completions.create` requests issued.  `_to_provider_messages`
is the identity (line 119).  On an empty list the code executes
`raise "No messages provided"` (a `TypeError`, see `GenExc`).  When
`messages[-1]["content"]` is falsy (`None` or `""`) the code returns
`LLMResponse(text="", raw=None)` before any provider request.  In the
`try` block, `asyncio.TimeoutError` is re-raised as
`RuntimeError("LLM request timed out")`; otherwise the (possibly
tool-mediated) response content is returned with the raw response
attached. -/
def generate (provider : ProviderBehavior) (messages : List GenMessage) :
    (Except GenExc LLMResponse) × Nat :=
  match messages.getLast? with
  | none => (Except.error GenExc.typeErrorStrRaised, 0)
  | some last =>
    if pyTruthy last.content then
      match provider with
      | .timeout => (Except.error (GenExc.runtimeError "LLM request timed out"), 1)
      | .plain content => (Except.ok ⟨content, some ()⟩, 1)
      | .tool content2 => (Except.ok ⟨content2, some ()⟩, 2)
    else
      (Except.ok ⟨some "", none⟩, 0)

/-- C8: on an empty messages list `generate` reaches
`raise "No messages provided"`; a `str` is not an exception object, so
Python raises `TypeError` — not an exception carrying that message —
and no provider request is issued. -/
theorem generate_empty_raises_typeerror (provider : ProviderBehavior) :
    generate provider [] = (Except.error GenExc.typeErrorStrRaised, 0) := rfl

/-- C9: when the last message's `content` is falsy (`None` or the
empty string), `generate` returns `LLMResponse(text="", raw=None)`
without issuing any chat-completion request. -/
theorem generate_falsy_last_content (provider : ProviderBehavior)
    (messages : List GenMessage) (last : GenMessage)
    (hlast : messages.getLast? = some last)
    (hfalsy : last.content = none ∨ last.content = some "") :
    generate provider messages = (Except.ok ⟨some "", none⟩, 0) := by
  have hf : pyTruthy last.content = false := by
    rcases hfalsy with h | h <;> simp [pyTruthy, h]
  simp [generate, hlast, hf]

/-- Witness for C9 at the one-message list whose content is `""`. -/
theorem generate_falsy_last_content_witness :
    ([⟨"user", some ""⟩] : List GenMessage).getLast? = some ⟨"user", some ""⟩
    ∧ ((⟨"user", some ""⟩ : GenMessage).content = none
        ∨ (⟨"user", some ""⟩ : GenMessage).content = some "")
    ∧ generate ProviderBehavior.timeout [⟨"user", some ""⟩]
        = (Except.ok ⟨some "", none⟩, 0) :=
  ⟨rfl, Or.inr rfl,
    generate_falsy_last_content ProviderBehavior.timeout [⟨"user", some ""⟩]
      ⟨"user", some ""⟩ rfl (Or.inr rfl)⟩

end Pipecat
